import Mathlib

/-!
Shallow embedding, in Lean 4, of the code in
`examples/train-resnet50-multiray-wds.ipynb` — the only source file of this
repository.  The notebook wires three external libraries (webdataset, torch,
ray) together; the embedding below models exactly the repository's own logic:
the `enumerate_report` generator, the `Config` dataclass, the
`make_dataloader` dispatcher, the training loop of `train` (its step
accounting and early return), the SGD-constructor arguments, `train_on_ray`'s
distributed setup, and `distributed_training`'s task fan-out.

Python floats (`time.time()` values, `delta`, `growth`, learning rate, …) are
modelled as rationals; Python ints as `Nat`.  A call of `time.time()` at the
n-th loop iteration is modelled by a clock function `Nat → ℚ` giving the time
observed at each element.
-/

/-- Embedding of `enumerate_report`'s loop body (notebook cell 1).  The Python
generator keeps three loop variables: the element index `count`, the timestamp
`last` of the most recent element yielded with a `True` flag (initially `0`),
and the current gate interval `delta`, which is multiplied by `growth` at the
end of every iteration in both branches.  At each element it reads the clock
(`now = time.time()`), flags the element iff `now - last > delta`, and updates
`last` to `now` only when the flag is `True`. -/
def enumRep (clock : Nat → ℚ) (growth : ℚ) :
    List α → Nat → ℚ → ℚ → List (Nat × α × Bool)
  | [], _, _, _ => []
  | item :: rest, count, last, delta =>
    let now := clock count
    if delta < now - last then
      (count, item, true) :: enumRep clock growth rest (count + 1) now (delta * growth)
    else
      (count, item, false) :: enumRep clock growth rest (count + 1) last (delta * growth)

/-- Embedding of `enumerate_report(seq, delta, growth=1.0)` from notebook
cell 1: the loop starts at index `0` with `last = 0` and the given initial
interval `delta`. -/
def enumerate_report (seq : List α) (delta : ℚ) (growth : ℚ) (clock : Nat → ℚ) :
    List (Nat × α × Bool) :=
  enumRep clock growth seq 0 0 delta

/-- Modelled from the spec and claim wording for the refinement statement:
the timestamp recorded at the most recent `True`-flagged element strictly
before element `n` (initially `0`), with the interval in effect at element `m`
being `delta * growth ^ m`. -/
def lastReportSpec (clock : Nat → ℚ) (delta growth : ℚ) : Nat → ℚ
  | 0 => 0
  | n + 1 =>
    let last := lastReportSpec clock delta growth n
    if delta * growth ^ n < clock n - last then clock n else last

/-- Modelled from the claim wording: element `n` is flagged for reporting
exactly when the clock time observed at it exceeds the timestamp of the most
recent flagged element by more than the interval in effect at `n`. -/
def reportFlagSpec (clock : Nat → ℚ) (delta growth : ℚ) (n : Nat) : Bool :=
  decide (delta * growth ^ n < clock n - lastReportSpec clock delta growth n)

/-- Variant of the `enumerate_report` loop that is handed the gate interval
for each element as a function of the element index, instead of threading a
mutable `delta`.  Used to state that the interval in effect at element `n` of
`enumerate_report` is `delta * growth ^ n`. -/
def enumRepI (clock : Nat → ℚ) (interval : Nat → ℚ) :
    List α → Nat → ℚ → List (Nat × α × Bool)
  | [], _, _ => []
  | item :: rest, count, last =>
    let now := clock count
    if interval count < now - last then
      (count, item, true) :: enumRepI clock interval rest (count + 1) now
    else
      (count, item, false) :: enumRepI clock interval rest (count + 1) last

/-- Shard URL pattern for the training set (notebook cell 3); the brace range
of the tar shards is kept verbatim, with the braces escaped. -/
def trainset_url : String :=
  "https://storage.googleapis.com/webdataset/fake-imagenet" ++
    "/imagenet-train-\x7b000000..001281\x7d.tar"

/-- Batch size set in notebook cell 3. -/
def batch_size : Nat := 32

/-- The parameters `make_dataloader_train` (notebook cell 5) hands to the
dataset-streaming library: source URL, resampling flag, the two shuffle buffer
sizes, the inner batching size, the final batch size, and the recreated epoch
length `1282 * 100 // 64`. -/
structure Loader where
  url : String
  resampled : Bool
  shuffle1 : Nat
  batchedInner : Nat
  shuffle2 : Nat
  batchSize : Nat
  epochLen : Nat
deriving DecidableEq

/-- Embedding of `make_dataloader_train` (notebook cell 5): pure parameter
wiring into the streaming library. -/
def make_dataloader_train : Loader :=
  { url := trainset_url
    resampled := true
    shuffle1 := 1000
    batchedInner := 64
    shuffle2 := 1000
    batchSize := batch_size
    epochLen := 1282 * 100 / 64 }

/-- Outcome of a Python call that may raise: a normal return, a `NameError`
naming the undefined identifier, or a `ValueError` carrying its message. -/
inductive PyResult (α : Type) where
  | ok (v : α)
  | nameError (nm : String)
  | valueError (msg : String)
deriving DecidableEq

/-- Whether a `PyResult` is a `ValueError`. -/
def PyResult.isValueError : PyResult α → Bool
  | .valueError _ => true
  | _ => false

/-- Embedding of `make_dataloader(split)` (notebook cell 6).  The `"train"`
branch returns the training loader.  The `"val"` branch calls
`make_dataloader_val`, which is not defined anywhere in the repository (the
cell itself notes it is not implemented for this notebook), so in Python the
call raises `NameError("make_dataloader_val")`; it is modelled accordingly.
Every other split name raises `ValueError(f"unknown split \x7bsplit\x7d")`. -/
def make_dataloader (split : String) : PyResult Loader :=
  if split = "train" then .ok make_dataloader_train
  else if split = "val" then .nameError "make_dataloader_val"
  else .valueError ("unknown split " ++ split)

/-- Embedding of the `Config` dataclass (notebook cell 8), with its default
values: `int(1e18)` is exactly `10 ^ 18`, floats are the corresponding
rationals, and the optional `rank` starts as `None`. -/
structure Config where
  epochs : Nat := 1
  maxsteps : Nat := 10 ^ 18
  lr : ℚ := 1 / 1000
  momentum : ℚ := 9 / 10
  rank : Option Nat := none
  world_size : Nat := 2
  backend : String := "nccl"
  master_addr : String := "localhost"
  master_port : String := "12355"
  report_s : ℚ := 15
  report_growth : ℚ := 11 / 10
deriving DecidableEq

/-- Arguments the notebook passes to the SGD constructor in `train`
(notebook cell 9): `torch.optim.SGD(model.parameters(), lr=config.lr)`.
A `none` momentum records that no momentum keyword is passed, so the
framework default applies. -/
structure SGDArgs where
  lr : ℚ
  momentum : Option ℚ
deriving DecidableEq

/-- The optimizer construction in `train` (notebook cell 9): only the
learning rate is taken from the config; the momentum keyword is absent. -/
def train_sgd_args (config : Config) : SGDArgs :=
  { lr := config.lr, momentum := none }

/-- Result of the training loop of `train` (notebook cell 9): the final value
of the `steps` sample counter, the number of `optimizer.step()` calls made,
and whether the loop returned early via the `maxsteps` branch (`early = true`
corresponds to printing the `finished training (maxsteps)` message, `early =
false` to the normal `finished Training` completion message). -/
structure TrainResult where
  steps : Nat
  optSteps : Nat
  early : Bool
deriving DecidableEq

/-- One epoch's inner loop of `train` (notebook cell 9) over that epoch's
batches, each batch represented by its label count `len(labels)`.  For every
batch the optimizer update is applied, then `steps += len(labels)`, and only
then the cap is checked: `if steps > config.maxsteps: return`. -/
def runBatches (maxsteps : Nat) : List Nat → Nat → Nat → TrainResult
  | [], steps, opt => ⟨steps, opt, false⟩
  | b :: rest, steps, opt =>
    if maxsteps < steps + b then ⟨steps + b, opt + 1, true⟩
    else runBatches maxsteps rest (steps + b) (opt + 1)

/-- The epoch loop of `train` (notebook cell 9): run the epochs in order,
propagating the early return of the `maxsteps` branch. -/
def trainEpochs (maxsteps : Nat) : List (List Nat) → Nat → Nat → TrainResult
  | [], steps, opt => ⟨steps, opt, false⟩
  | ep :: rest, steps, opt =>
    let r := runBatches maxsteps ep steps opt
    if r.early then r else trainEpochs maxsteps rest r.steps r.optSteps

/-- Embedding of the training loop of `train(config)` (notebook cell 9):
`for epoch in range(config.epochs)` iterates the loader once per epoch;
`loader e` gives the label counts of the batches the loader yields in epoch
`e`.  Both counters start at `0`. -/
def trainRun (config : Config) (loader : Nat → List Nat) : TrainResult :=
  trainEpochs config.maxsteps ((List.range config.epochs).map loader) 0 0

/-- The batches `train` can process, flattened across the at most
`config.epochs` epochs it iterates. -/
def flatBatches (config : Config) (loader : Nat → List Nat) : List Nat :=
  ((List.range config.epochs).map loader).flatten

/-- The arguments of the `dist.init_process_group` call in `train_on_ray`
(notebook cell 12). -/
structure PGInit where
  backend : String
  rank : Nat
  world_size : Nat
deriving DecidableEq

/-- Environment-variable effect of `train_on_ray` (notebook cell 12): the
values written to `MASTER_ADDR` and `MASTER_PORT`, `none` meaning the
variable is left untouched. -/
structure RayEnv where
  master_addr : Option String := none
  master_port : Option String := none
deriving DecidableEq

/-- Embedding of `train_on_ray(rank, config)` (notebook cell 12).  With a
non-`None` rank it sets the two environment variables from the config, calls
`dist.init_process_group(backend=config.backend, rank=rank,
world_size=config.world_size)`, and sets `config.rank = rank`; with rank
`None` it does none of that.  In both cases `train` is then invoked on the
resulting config, which is the third component. -/
def train_on_ray (rank : Option Nat) (config : Config) :
    RayEnv × Option PGInit × Config :=
  match rank with
  | some r =>
    ({ master_addr := some config.master_addr
       master_port := some config.master_port },
     some ⟨config.backend, r, config.world_size⟩,
     { config with rank := some r })
  | none => ({}, none, config)

/-- Embedding of `distributed_training(config)` (notebook cell 13): clamp
`config.world_size` to the number of GPUs the scheduler reports available,
then launch one remote `train_on_ray` task per rank `i` in
`range(config.world_size)`, each receiving the updated config.  Returns the
updated config together with the list of `(rank, config)` task arguments. -/
def distributed_training (config : Config) (num_gpus : Nat) :
    Config × List (Nat × Config) :=
  let cfg := { config with world_size := min config.world_size num_gpus }
  (cfg, (List.range cfg.world_size).map fun i => (i, cfg))

/-! ### Properties of `enumerate_report` -/

lemma lastReportSpec_succ (clock : Nat → ℚ) (delta growth : ℚ) (n : Nat) :
    lastReportSpec clock delta growth (n + 1)
      = if delta * growth ^ n < clock n - lastReportSpec clock delta growth n
        then clock n else lastReportSpec clock delta growth n := rfl

lemma enumRep_eq_enumFrom (clock : Nat → ℚ) (delta growth : ℚ) (seq : List α)
    (n : Nat) :
    enumRep clock growth seq n (lastReportSpec clock delta growth n)
        (delta * growth ^ n)
      = (List.enumFrom n seq).map
          fun p => (p.1, p.2, reportFlagSpec clock delta growth p.1) := by
  induction seq generalizing n with
  | nil => rfl
  | cons a rest ih =>
    by_cases h : delta * growth ^ n < clock n - lastReportSpec clock delta growth n
    · have hflag : reportFlagSpec clock delta growth n = true := by
        simp [reportFlagSpec, h]
      have hlast : lastReportSpec clock delta growth (n + 1) = clock n := by
        rw [lastReportSpec_succ, if_pos h]
      have hdelta : delta * growth ^ n * growth = delta * growth ^ (n + 1) := by
        ring
      calc enumRep clock growth (a :: rest) n
              (lastReportSpec clock delta growth n) (delta * growth ^ n)
          = (n, a, true) ::
              enumRep clock growth rest (n + 1) (clock n)
                (delta * growth ^ n * growth) := by
            simp only [enumRep]; rw [if_pos h]
        _ = (n, a, true) ::
              enumRep clock growth rest (n + 1)
                (lastReportSpec clock delta growth (n + 1))
                (delta * growth ^ (n + 1)) := by rw [hlast, hdelta]
        _ = (n, a, true) ::
              (List.enumFrom (n + 1) rest).map
                (fun p => (p.1, p.2, reportFlagSpec clock delta growth p.1)) := by
            rw [ih]
        _ = (List.enumFrom n (a :: rest)).map
              (fun p => (p.1, p.2, reportFlagSpec clock delta growth p.1)) := by
            simp [List.enumFrom, hflag]
    · have hflag : reportFlagSpec clock delta growth n = false := by
        simp [reportFlagSpec, h]
      have hlast : lastReportSpec clock delta growth (n + 1)
          = lastReportSpec clock delta growth n := by
        rw [lastReportSpec_succ, if_neg h]
      have hdelta : delta * growth ^ n * growth = delta * growth ^ (n + 1) := by
        ring
      calc enumRep clock growth (a :: rest) n
              (lastReportSpec clock delta growth n) (delta * growth ^ n)
          = (n, a, false) ::
              enumRep clock growth rest (n + 1)
                (lastReportSpec clock delta growth n)
                (delta * growth ^ n * growth) := by
            simp only [enumRep]; rw [if_neg h]
        _ = (n, a, false) ::
              enumRep clock growth rest (n + 1)
                (lastReportSpec clock delta growth (n + 1))
                (delta * growth ^ (n + 1)) := by rw [hlast, hdelta]
        _ = (n, a, false) ::
              (List.enumFrom (n + 1) rest).map
                (fun p => (p.1, p.2, reportFlagSpec clock delta growth p.1)) := by
            rw [ih]
        _ = (List.enumFrom n (a :: rest)).map
              (fun p => (p.1, p.2, reportFlagSpec clock delta growth p.1)) := by
            simp [List.enumFrom, hflag]

/-- C1: `enumerate_report(seq, delta, growth)` yields exactly one triple per
element of `seq`, in order, carrying the zero-based index and the element;
the report flag of element `n` is `True` exactly when the clock time observed
there exceeds the timestamp recorded at the most recent `True`-flagged
element (initially `0`) by more than the interval in effect at `n`, and that
timestamp is updated only at `True`-flagged elements. -/
theorem enumerate_report_indexed_flags_c1 (seq : List α) (delta growth : ℚ)
    (clock : Nat → ℚ) :
    enumerate_report seq delta growth clock
      = seq.enum.map fun p => (p.1, p.2, reportFlagSpec clock delta growth p.1) := by
  have h := enumRep_eq_enumFrom clock delta growth seq 0
  simpa [enumerate_report, lastReportSpec, List.enum] using h

lemma enumRep_interval (clock : Nat → ℚ) (delta growth : ℚ) (seq : List α)
    (n : Nat) (last : ℚ) :
    enumRep clock growth seq n last (delta * growth ^ n)
      = enumRepI clock (fun m => delta * growth ^ m) seq n last := by
  induction seq generalizing n last with
  | nil => rfl
  | cons a rest ih =>
    have hdelta : delta * growth ^ n * growth = delta * growth ^ (n + 1) := by
      ring
    by_cases h : delta * growth ^ n < clock n - last
    · simp only [enumRep, enumRepI]
      rw [if_pos h, if_pos h, hdelta, ih]
    · simp only [enumRep, enumRepI]
      rw [if_neg h, if_neg h, hdelta, ih]

/-- C9: the gate interval `enumerate_report` compares against at the
zero-based element `n` is `delta * growth ^ n` — the loop multiplies `delta`
by `growth` after every element, flagged or not — and with growth `1` (the
Python default `growth=1.0`) the interval stays constant at `delta`. -/
theorem enumerate_report_interval_growth_c9 (seq : List α) (delta growth : ℚ)
    (clock : Nat → ℚ) :
    enumerate_report seq delta growth clock
        = enumRepI clock (fun n => delta * growth ^ n) seq 0 0
      ∧ enumerate_report seq delta 1 clock
        = enumRepI clock (fun _ => delta) seq 0 0 := by
  constructor
  · have h := enumRep_interval clock delta growth seq 0 0
    simpa [enumerate_report] using h
  · have h := enumRep_interval clock delta 1 seq 0 0
    simp only [one_pow, mul_one] at h
    simpa [enumerate_report] using h

/-! ### Properties of the training loop -/

lemma runBatches_append (ms : Nat) (l1 l2 : List Nat) (s o : Nat) :
    runBatches ms (l1 ++ l2) s o
      = (if (runBatches ms l1 s o).early then runBatches ms l1 s o
         else runBatches ms l2 (runBatches ms l1 s o).steps
                (runBatches ms l1 s o).optSteps) := by
  induction l1 generalizing s o with
  | nil => simp [runBatches]
  | cons b rest ih =>
    by_cases h : ms < s + b
    · simp [runBatches, h]
    · simp only [List.cons_append, runBatches, if_neg h]
      exact ih (s + b) (o + 1)

lemma trainEpochs_eq_flatten (ms : Nat) (eps : List (List Nat)) (s o : Nat) :
    trainEpochs ms eps s o = runBatches ms eps.flatten s o := by
  induction eps generalizing s o with
  | nil => rfl
  | cons ep rest ih =>
    simp only [trainEpochs, List.flatten_cons, runBatches_append]
    by_cases h : (runBatches ms ep s o).early
    · simp [h]
    · simp [h, ih]

lemma runBatches_no_exceed (ms : Nat) (l : List Nat) (s o : Nat)
    (h : ∀ k, k < l.length → s + (l.take (k + 1)).sum ≤ ms) :
    runBatches ms l s o = ⟨s + l.sum, o + l.length, false⟩ := by
  induction l generalizing s o with
  | nil => simp [runBatches]
  | cons b rest ih =>
    have h0 : s + b ≤ ms := by
      have := h 0 (by simp)
      simpa using this
    simp only [runBatches, if_neg (not_lt.mpr h0)]
    have hrest : ∀ k, k < rest.length → (s + b) + (rest.take (k + 1)).sum ≤ ms := by
      intro k hk
      have := h (k + 1) (by simpa using Nat.succ_lt_succ hk)
      simpa [List.take_succ_cons, List.sum_cons, add_assoc] using this
    rw [ih (s + b) (o + 1) hrest]
    simp only [TrainResult.mk.injEq, List.sum_cons, List.length_cons]
    refine ⟨by omega, by omega, trivial⟩

lemma runBatches_first_exceed (ms : Nat) (l : List Nat) (s o k : Nat)
    (hk : k < l.length) (hex : ms < s + (l.take (k + 1)).sum)
    (hmin : ∀ j, j < k → s + (l.take (j + 1)).sum ≤ ms) :
    runBatches ms l s o = ⟨s + (l.take (k + 1)).sum, o + (k + 1), true⟩ := by
  induction l generalizing s o k with
  | nil => exact absurd hk (Nat.not_lt_zero k)
  | cons b rest ih =>
    cases k with
    | zero =>
      have hb : ms < s + b := by simpa using hex
      simp [runBatches, hb]
    | succ k =>
      have h0 : s + b ≤ ms := by
        have := hmin 0 (Nat.succ_pos k)
        simpa using this
      simp only [runBatches, if_neg (not_lt.mpr h0)]
      have hk2 : k < rest.length := by simpa using Nat.lt_of_succ_lt_succ hk
      have hex2 : ms < (s + b) + (rest.take (k + 1)).sum := by
        simpa [List.take_succ_cons, List.sum_cons, add_assoc] using hex
      have hmin2 : ∀ j, j < k → (s + b) + (rest.take (j + 1)).sum ≤ ms := by
        intro j hj
        have := hmin (j + 1) (Nat.succ_lt_succ hj)
        simpa [List.take_succ_cons, List.sum_cons, add_assoc] using this
      rw [ih (s + b) (o + 1) k hk2 hex2 hmin2]
      simp only [TrainResult.mk.injEq, List.take_succ_cons, List.sum_cons]
      refine ⟨by omega, by omega, trivial⟩

lemma trainRun_eq_runBatches (config : Config) (loader : Nat → List Nat) :
    trainRun config loader
      = runBatches config.maxsteps (flatBatches config loader) 0 0 :=
  trainEpochs_eq_flatten config.maxsteps ((List.range config.epochs).map loader) 0 0

/-- C5: `train` iterates at most `config.epochs` epochs over the loader.  If
some prefix of the processed batches pushes the cumulative sample count above
`config.maxsteps`, the loop returns early at the end of the first such batch
(the `finished training (maxsteps)` message, `early = true`); otherwise it
completes all epochs with the normal completion message (`early = false`),
having processed every batch. -/
theorem train_epoch_cap_c5 (config : Config) (loader : Nat → List Nat) :
    ((∀ k, k < (flatBatches config loader).length →
        ((flatBatches config loader).take (k + 1)).sum ≤ config.maxsteps) →
      trainRun config loader
        = ⟨(flatBatches config loader).sum, (flatBatches config loader).length,
           false⟩)
    ∧ (∀ k, k < (flatBatches config loader).length →
        config.maxsteps < ((flatBatches config loader).take (k + 1)).sum →
        (∀ j, j < k →
          ((flatBatches config loader).take (j + 1)).sum ≤ config.maxsteps) →
        trainRun config loader
          = ⟨((flatBatches config loader).take (k + 1)).sum, k + 1, true⟩) := by
  constructor
  · intro h
    rw [trainRun_eq_runBatches,
      runBatches_no_exceed _ _ 0 0 (fun k hk => by simpa using h k hk)]
    simp
  · intro k hk hex hmin
    rw [trainRun_eq_runBatches,
      runBatches_first_exceed _ _ 0 0 k hk (by simpa using hex)
        (fun j hj => by simpa using hmin j hj)]
    simp

theorem train_epoch_cap_c5_witness :
    trainRun { epochs := 2, maxsteps := 5 } (fun _ => [3, 4])
      = ⟨((flatBatches { epochs := 2, maxsteps := 5 }
            (fun _ => [3, 4])).take 2).sum, 2, true⟩ :=
  (train_epoch_cap_c5 { epochs := 2, maxsteps := 5 } (fun _ => [3, 4])).2
    1 (by decide) (by decide) (by decide)

/-- C10: whenever `train` returns early because of the step cap, the final
`steps` counter is the sum of the label counts of the first `k + 1` batches
for some `k` (the cap is only checked at batch boundaries), the sum of the
first `k` batches was still within the cap, so the overshoot is at most the
final batch's label count, and the optimizer has stepped exactly `k + 1`
times — the update for the final batch included. -/
theorem train_cap_overshoot_c10 (config : Config) (loader : Nat → List Nat)
    (h : (trainRun config loader).early = true) :
    ∃ k, k < (flatBatches config loader).length
      ∧ (trainRun config loader).steps
          = ((flatBatches config loader).take (k + 1)).sum
      ∧ ((flatBatches config loader).take k).sum ≤ config.maxsteps
      ∧ (trainRun config loader).steps
          ≤ config.maxsteps + (flatBatches config loader).getD k 0
      ∧ (trainRun config loader).optSteps = k + 1 := by
  have hrw := trainRun_eq_runBatches config loader
  have hP : ∃ k, k < (flatBatches config loader).length
      ∧ config.maxsteps < ((flatBatches config loader).take (k + 1)).sum := by
    by_contra hno
    push_neg at hno
    have hall := runBatches_no_exceed config.maxsteps (flatBatches config loader)
      0 0 (fun k hk => by simpa using hno k hk)
    rw [hrw, hall] at h
    simp at h
  have hk := Nat.find_spec hP
  have hmin : ∀ j, j < Nat.find hP →
      ((flatBatches config loader).take (j + 1)).sum ≤ config.maxsteps := by
    intro j hj
    have hnp := Nat.find_min hP hj
    push_neg at hnp
    exact hnp (lt_trans hj hk.1)
  have hrun := runBatches_first_exceed config.maxsteps (flatBatches config loader)
    0 0 (Nat.find hP) hk.1 (by simpa using hk.2)
    (fun j hj => by simpa using hmin j hj)
  have htk : ((flatBatches config loader).take (Nat.find hP)).sum
      ≤ config.maxsteps := by
    cases hfind : Nat.find hP with
    | zero => simp
    | succ j =>
      have hj : j < Nat.find hP := by simp [hfind]
      exact hmin j hj
  have hsucc : ((flatBatches config loader).take (Nat.find hP + 1)).sum
      = ((flatBatches config loader).take (Nat.find hP)).sum
        + (flatBatches config loader).getD (Nat.find hP) 0 := by
    rw [List.sum_take_succ _ _ hk.1, List.getD_eq_getElem _ _ hk.1]
  refine ⟨Nat.find hP, hk.1, by simp [hrw, hrun], htk, ?_, by simp [hrw, hrun]⟩
  rw [hrw, hrun]
  simp only [hsucc]
  omega

theorem train_cap_overshoot_c10_witness :
    ∃ k, k < (flatBatches { epochs := 1, maxsteps := 4 }
          (fun _ => [2, 3])).length
      ∧ (trainRun { epochs := 1, maxsteps := 4 } (fun _ => [2, 3])).steps
          = ((flatBatches { epochs := 1, maxsteps := 4 }
              (fun _ => [2, 3])).take (k + 1)).sum
      ∧ ((flatBatches { epochs := 1, maxsteps := 4 }
            (fun _ => [2, 3])).take k).sum ≤ (4 : Nat)
      ∧ (trainRun { epochs := 1, maxsteps := 4 } (fun _ => [2, 3])).steps
          ≤ 4 + (flatBatches { epochs := 1, maxsteps := 4 }
              (fun _ => [2, 3])).getD k 0
      ∧ (trainRun { epochs := 1, maxsteps := 4 } (fun _ => [2, 3])).optSteps
          = k + 1 :=
  train_cap_overshoot_c10 { epochs := 1, maxsteps := 4 } (fun _ => [2, 3])
    (by decide)

/-! ### Properties of the wiring code -/

/-- Whether a `PyResult` is a normal return. -/
def PyResult.isOk : PyResult α → Bool
  | .ok _ => true
  | _ => false

/-- C2: `make_dataloader` raises `ValueError` with a message naming the
unrecognized split for every split other than `"train"` and `"val"`; it does
not raise that rejection for `"train"` (which returns the training loader)
nor for `"val"`. -/
theorem make_dataloader_split_rejection_c2 (split : String)
    (h1 : split ≠ "train") (h2 : split ≠ "val") :
    make_dataloader split = .valueError ("unknown split " ++ split)
      ∧ make_dataloader "train" = .ok make_dataloader_train
      ∧ (make_dataloader "val").isValueError = false
      ∧ (make_dataloader "train").isValueError = false := by
  refine ⟨?_, rfl, rfl, rfl⟩
  simp [make_dataloader, h1, h2]

theorem make_dataloader_split_rejection_c2_witness :
    make_dataloader "test" = .valueError ("unknown split " ++ "test")
      ∧ make_dataloader "train" = .ok make_dataloader_train
      ∧ (make_dataloader "val").isValueError = false
      ∧ (make_dataloader "train").isValueError = false :=
  make_dataloader_split_rejection_c2 "test" (by decide) (by decide)

/-- C8: `make_dataloader("val")` escapes the `ValueError` branch but never
returns a loader: it calls `make_dataloader_val`, which is defined nowhere in
the repository, so the call raises a `NameError` naming it. -/
theorem make_dataloader_val_undefined_c8 :
    make_dataloader "val" = .nameError "make_dataloader_val"
      ∧ (make_dataloader "val").isOk = false
      ∧ (make_dataloader "val").isValueError = false :=
  ⟨rfl, rfl, rfl⟩

/-- C3 counterexample: at the default config, whose momentum is `0.9`,
`train` does not pass the momentum field to the SGD constructor — the call is
`torch.optim.SGD(model.parameters(), lr=config.lr)` with no momentum keyword
— so the SGD arguments do not carry `config.momentum`. -/
theorem train_sgd_momentum_dropped_c3 :
    (train_sgd_args ({} : Config)).momentum
      ≠ some (({} : Config).momentum) := by
  decide

/-- C3 amended: `train` constructs its SGD optimizer with `config.lr` as the
learning rate, but the momentum keyword is not passed at all — the
`momentum` field of the settings record is never threaded through to the
optimizer, which is left at the framework's default. -/
theorem train_sgd_args_lr_only_c3 (config : Config) :
    (train_sgd_args config).lr = config.lr
      ∧ (train_sgd_args config).momentum = none :=
  ⟨rfl, rfl⟩

/-- C4: `Config()` with no arguments yields exactly the documented default
values for its eleven fields. -/
theorem config_defaults_c4 :
    ({} : Config).epochs = 1 ∧ ({} : Config).maxsteps = 10 ^ 18
      ∧ ({} : Config).lr = 1 / 1000 ∧ ({} : Config).momentum = 9 / 10
      ∧ ({} : Config).rank = none ∧ ({} : Config).world_size = 2
      ∧ ({} : Config).backend = "nccl"
      ∧ ({} : Config).master_addr = "localhost"
      ∧ ({} : Config).master_port = "12355"
      ∧ ({} : Config).report_s = 15
      ∧ ({} : Config).report_growth = 11 / 10 :=
  ⟨rfl, rfl, rfl, rfl, rfl, rfl, rfl, rfl, rfl, rfl, rfl⟩

/-- C6: `distributed_training` first clamps `config.world_size` to the GPU
count the scheduler reports, then launches exactly that many remote training
tasks, the i-th receiving rank `i` together with the updated config. -/
theorem distributed_training_fanout_c6 (config : Config) (num_gpus : Nat) :
    (distributed_training config num_gpus).1.world_size
        = min config.world_size num_gpus
      ∧ (distributed_training config num_gpus).1
          = { config with world_size := min config.world_size num_gpus }
      ∧ (distributed_training config num_gpus).2
          = (List.range (min config.world_size num_gpus)).map
              (fun i => (i, (distributed_training config num_gpus).1))
      ∧ (distributed_training config num_gpus).2.length
          = min config.world_size num_gpus := by
  refine ⟨rfl, rfl, rfl, ?_⟩
  simp [distributed_training]

/-- C7: with a non-`None` rank, `train_on_ray` exports `MASTER_ADDR` and
`MASTER_PORT` from the config, initializes the process group with
`config.backend`, the given rank and `config.world_size`, and runs `train`
on the config with its rank set to that rank; with rank `None` it runs
`train` with the environment, the process group and the config untouched. -/
theorem train_on_ray_setup_c7 (r : Nat) (config : Config) :
    train_on_ray (some r) config
        = ({ master_addr := some config.master_addr,
             master_port := some config.master_port },
           some ⟨config.backend, r, config.world_size⟩,
           { config with rank := some r })
      ∧ train_on_ray none config
          = ({ master_addr := none, master_port := none }, none, config) :=
  ⟨rfl, rfl⟩
